import Mathlib

/-!
# Verification of the githubdownfall.com data-ingestion core

Shallow embedding of the repository's data-ingestion subsystem:
the persistent incident store (`db.ts` schema + `INSERT OR REPLACE`),
the SWR cache (`cached`, both the fire-and-forget and the blocking
variant found in the sources), the heatmap aggregator and status
deriver (`data.ts`), and the backfill scraper (`scrape.ts`).

Modelling conventions:
* ISO-8601 timestamp strings are represented by their parsed value,
  milliseconds since the Unix epoch (`Int`), i.e. the result of
  JavaScript `new Date(s).getTime()`.  UTC calendar dates (the
  `"YYYY-MM-DD"` day keys produced by `toISOString().split("T")[0]`)
  are represented by their epoch day number (`Int`); the string
  rendering is injective, so day-key equality coincides with day-number
  equality.
* JavaScript `Map` objects are represented by insertion-ordered
  association lists; the SQLite tables by lists of rows.
* `Math.round(x)` is `⌊x + 1/2⌋`, `Math.min`/`Math.max` over a spread
  list are folds, `a || b` on numbers replaces `0` (falsy) by `b`.
-/

set_option autoImplicit false

/-- JavaScript `v || d` for `v : number | undefined`: `undefined` and the
falsy number `0` fall through to the default. -/
def jsOrNat (v : Option Nat) (d : Nat) : Nat :=
  match v with
  | some w => if w = 0 then d else w
  | none => d

/-- `Math.round(num/den)` for a positive denominator: `⌊num/den + 1/2⌋`,
computed as `⌊(2*num + den)/(2*den)⌋` with floor division. -/
def jsRound (num den : Int) : Int :=
  Int.fdiv (2 * num + den) (2 * den)

-- –
-- Calendar (UTC, proleptic Gregorian, as used by JavaScript Date)
-- –

/-- Convert an epoch day number to a civil `(year, month, day)` triple
(UTC proleptic Gregorian, the calendar used by JavaScript `Date`). -/
def civilFromDays (z : Int) : Int × Nat × Nat :=
  let z' := z + 719468
  let era := Int.fdiv z' 146097
  let doe := (z' - era * 146097).toNat
  let yoe := (doe - doe / 1460 + doe / 36524 - doe / 146096) / 365
  let y : Int := (yoe : Int) + era * 400
  let doy := doe - (365 * yoe + yoe / 4 - yoe / 100)
  let mp := (5 * doy + 2) / 153
  let d := doy - (153 * mp + 2) / 5 + 1
  let m := if mp < 10 then mp + 3 else mp - 9
  (if m ≤ 2 then y + 1 else y, m, d)

/-- Convert a civil `(year, month, day)` date to its epoch day number.
Like JavaScript `Date.UTC`, out-of-range components normalize by
overflow (e.g. Feb 29 of a non-leap year denotes Mar 1). -/
def daysFromCivil (y : Int) (m d : Nat) : Int :=
  let y' := if m ≤ 2 then y - 1 else y
  let era := Int.fdiv y' 400
  let yoe := (y' - era * 400).toNat
  let doy := (153 * (if 2 < m then m - 3 else m + 9) + 2) / 5 + d - 1
  let doe := yoe * 365 + yoe / 4 - yoe / 100 + doy
  era * 146097 + (doe : Int) - 719468

/-- JavaScript `getUTCDay()` of an epoch day number: 0 = Sunday.
Day 0 (1970-01-01) was a Thursday. -/
def dow (z : Int) : Int :=
  (z + 4) % 7

-- –
-- Data model (data.ts)
-- –

/-- A GitHub Status incident (`interface Incident` in `data.ts`).
Timestamp strings are represented by their epoch-millisecond value;
`resolved_at : string | null` becomes `Option Int`. -/
structure Incident where
  created_at : Int
  id : String
  impact : String
  name : String
  resolved_at : Option Int
  shortlink : String
  started_at : Int
  status : String
  updated_at : Int
  deriving Repr, DecidableEq

/-- The `impactWeights` record: severity weights per impact level,
as a partial lookup (indexing a JS record off-key gives `undefined`). -/
def impactWeights (s : String) : Option Nat :=
  if s = "critical" then some 4
  else if s = "major" then some 3
  else if s = "minor" then some 2
  else if s = "none" then some 1
  else none

/-- `impactWeights[incident.impact as Impact] || 1` from the heatmap
grouping loop. -/
def incidentWeight (i : Incident) : Nat :=
  jsOrNat (impactWeights i.impact) 1

/-- The UTC calendar day of a millisecond timestamp:
`new Date(ms).toISOString().split("T")[0]`, as an epoch day number. -/
def msDay (ms : Int) : Int :=
  Int.fdiv ms 86400000

/-- `new Date(incident.started_at).toISOString().split("T")[0]`. -/
def dayKey (i : Incident) : Int :=
  msDay i.started_at

/-- Value stored per day key in the heatmap's `dayMap`. -/
structure DayData where
  severity : Nat
  incidents : List Incident
  deriving Repr, DecidableEq

/-- One step of the `dayMap` grouping loop: ensure an entry for `k`
exists, then add the incident's weight and membership.  The JS `Map`
preserves insertion order, modelled by in-place update. -/
def addToDay : List (Int × DayData) → Int → Incident → List (Int × DayData)
  | [], k, i => [(k, ⟨incidentWeight i, [i]⟩)]
  | (k', d) :: rest, k, i =>
    if k' = k then (k', ⟨d.severity + incidentWeight i, d.incidents ++ [i]⟩) :: rest
    else (k', d) :: addToDay rest k i

/-- The `dayMap` built by the grouping loop in `heatmap()`. -/
def buildDayMap (incs : List Incident) : List (Int × DayData) :=
  incs.foldl (fun m i => addToDay m (dayKey i) i) []

/-- `dayMap.get(k)`. -/
def lookupDay : List (Int × DayData) → Int → Option DayData
  | [], _ => none
  | (k', d) :: rest, k => if k' = k then some d else lookupDay rest k

/-- Severity of day `k` in a day map (0 if absent). -/
def daySeverity (m : List (Int × DayData)) (k : Int) : Nat :=
  match lookupDay m k with
  | some d => d.severity
  | none => 0

/-- Incidents of day `k` in a day map (`[]` if absent). -/
def dayIncidents (m : List (Int × DayData)) (k : Int) : List Incident :=
  match lookupDay m k with
  | some d => d.incidents
  | none => []

/-- A day cell in the heatmap grid (`interface HeatmapDay`); `date` is
the epoch day number standing for the `"YYYY-MM-DD"` key. -/
structure HeatmapDay where
  count : Nat
  date : Int
  incidents : List Incident
  severity : Nat
  deriving Repr, DecidableEq

/-- The cell pushed for day `d` in the generation loop:
zero severity / count / incidents when the day map has no entry. -/
def mkDay (m : List (Int × DayData)) (d : Int) : HeatmapDay :=
  match lookupDay m d with
  | some dd => ⟨dd.incidents.length, d, dd.incidents, dd.severity⟩
  | none => ⟨0, d, [], 0⟩

/-- The consecutive day numbers from `start` to `stop`, inclusive
(empty when `stop < start`): the values taken by `currentDate`. -/
def dayRange (start stop : Int) : List Int :=
  (List.range (stop - start + 1).toNat).map (fun k : Nat => start + (k : Int))

-- –
-- Chunking loops (`currentWeek`/`weeks` push loop; batch slicing)
-- –

/-- One step of the accumulate-and-flush loop: append `x` to the
current chunk; when the chunk reaches `width`, flush it. -/
def chunkStep {α : Type} (width : Nat) (acc : List (List α) × List α) (x : α) :
    List (List α) × List α :=
  let c := acc.2 ++ [x]
  if c.length = width then (acc.1 ++ [c], []) else (acc.1, c)

/-- Split a list into consecutive chunks of `width` elements, the final
chunk possibly shorter, exactly as the week-accumulation loop in
`heatmap()` (width 7) and the `codes.slice(i, i + BATCH)` loop in the
scraper (width 5) do. -/
def chunksFold {α : Type} (width : Nat) (l : List α) : List (List α) :=
  let p := l.foldl (chunkStep width) ([], [])
  match p.2 with
  | [] => p.1
  | _ => p.1 ++ [p.2]

-- –
-- Heatmap aggregator (`heatmap()` in data.ts)
-- –

/-- `today`: the current time truncated to UTC midnight
(`setUTCHours(0,0,0,0)`), as an epoch day number. -/
def todayOf (nowMs : Int) : Int :=
  msDay nowMs

/-- `oneYearAgo`: copy of `today` with `setUTCFullYear(year - 1)`. -/
def oneYearAgoOf (nowMs : Int) : Int :=
  let c := civilFromDays (todayOf nowMs)
  daysFromCivil (c.1 - 1) c.2.1 c.2.2

/-- The week-aligned start of the grid:
`currentDate.setUTCDate(currentDate.getUTCDate() - currentDate.getUTCDay())`. -/
def weekStartOf (nowMs : Int) : Int :=
  oneYearAgoOf nowMs - dow (oneYearAgoOf nowMs)

/-- Days pulled in before the one-year mark by the week alignment. -/
def leadDaysOf (nowMs : Int) : Nat :=
  (dow (oneYearAgoOf nowMs)).toNat

/-- Result record of `heatmap()`. -/
structure HeatmapResult where
  dayMap : List (Int × DayData)
  incidents : List Incident
  maxSeverity : Nat
  weeks : List (List HeatmapDay)
  deriving Repr

/-- `heatmap()`: build the year-long grid from the stored incidents
(`rows`, as returned by `SELECT * FROM incidents ORDER BY started_at
DESC`) at current time `nowMs`.  `maxSeverity` is
`Math.max(...dayMap.values().map(severity), 1)`. -/
def heatmap (rows : List Incident) (nowMs : Int) : HeatmapResult :=
  let dayMap := buildDayMap rows
  let days := (dayRange (weekStartOf nowMs) (todayOf nowMs)).map (mkDay dayMap)
  let weeks := chunksFold 7 days
  let maxSeverity := dayMap.foldl (fun a p => max a p.2.severity) 1
  ⟨dayMap, rows, maxSeverity, weeks⟩

-- –
-- Persistent store (db.ts schema; the `INSERT OR REPLACE` statement
-- shared by sync() in data.ts and the backfill scraper)
-- –

/-- The `incidents` table, one row per incident. -/
def IncidentTable : Type := List Incident

/-- `INSERT OR REPLACE INTO incidents ... VALUES (...)` with primary
key `id`: SQLite deletes any row conflicting on the primary key, then
inserts the new row. -/
def upsert (rows : List Incident) (inc : Incident) : List Incident :=
  rows.filter (fun r => r.id ≠ inc.id) ++ [inc]

-- –
-- SWR cache (`cached` in db.ts, both variants)
-- –

/-- A row of the `cache` table for one key. -/
structure CacheRow where
  value : String
  fetched_at : Int
  deriving Repr, DecidableEq

/-- `const TTL = 60_000`. -/
def TTL : Int := 60000

/-- The stale-while-revalidate variant of `cached` (fire-and-forget
refresh).  Parameters: `dec`/`enc` stand for `JSON.parse`/
`JSON.stringify`; `now` is `Date.now()` at the freshness check,
`writeAt` at the cache write; `row` is the current cache row for the
key; `fn` is the outcome of the fetch function (`.error` = rejected
promise).  Returns `(result, cache row after the refresh settles,
number of times fn was invoked)`. -/
def cachedSWR {α : Type} (dec : String → α) (enc : α → String)
    (now writeAt : Int) (row : Option CacheRow) (fn : Except Unit α) :
    Option α × Option CacheRow × Nat :=
  let fresh : Bool := match row with
    | some r => now - r.fetched_at < TTL
    | none => false
  if fresh then
    -- fresh hit: fall through to `return JSON.parse(row!.value)`
    (match row with | some r => some (dec r.value) | none => none, row, 0)
  else
    -- background refresh: on success write the row, swallow failures
    let row' := match fn with
      | .ok d => some ⟨enc d, writeAt⟩
      | .error _ => row
    match row with
    | none =>
      -- no cache at all: await the refresh, re-read, parse or null
      (match row' with
       | some seeded => (some (dec seeded.value), row', 1)
       | none => (none, row', 1))
    | some r =>
      -- stale: serve the stale value immediately
      (some (dec r.value), row', 1)

/-- The blocking-refresh variant of `cached` (second `db.ts` version):
fresh hit returns the row; otherwise await `fn`, write on success, and
on failure fall back to the stale row or `null`. -/
def cachedBlocking {α : Type} (dec : String → α) (enc : α → String)
    (now writeAt : Int) (row : Option CacheRow) (fn : Except Unit α) :
    Option α × Option CacheRow × Nat :=
  match row with
  | some r =>
    if now - r.fetched_at < TTL then
      (some (dec r.value), some r, 0)
    else
      match fn with
      | .ok d => (some d, some ⟨enc d, writeAt⟩, 1)
      | .error _ => (some (dec r.value), some r, 1)
  | none =>
    match fn with
    | .ok d => (some d, some ⟨enc d, writeAt⟩, 1)
    | .error _ => (none, none, 1)

-- –
-- Status deriver (`statusInfo` in data.ts)
-- –

/-- `{ description, indicator }` of the live status endpoint. -/
structure StatusBody where
  description : String
  indicator : String
  deriving Repr, DecidableEq

/-- `interface StatusResponse`. -/
structure StatusResponse where
  status : StatusBody
  deriving Repr, DecidableEq

/-- `interface UnresolvedResponse` (the per-incident `incident_updates`
bodies are not consulted by `statusInfo` and are omitted). -/
structure UnresolvedResponse where
  incidents : List Incident
  deriving Repr, DecidableEq

/-- Result of `statusInfo`. -/
structure StatusInfo where
  duration : String
  indicator : String
  label : String
  deriving Repr, DecidableEq

/-- `statusInfo({status, unresolved}, {incidents})` at current time
`now` (ms): label from the indicator, duration from the anchored
elapsed time. -/
def statusInfo (now : Int) (status : Option StatusResponse)
    (unresolved : Option UnresolvedResponse) (incidents : List Incident) :
    StatusInfo :=
  let indicator := match status with
    | some s => s.status.indicator
    | none => "none"
  let label :=
    if indicator = "critical" then "Critical Outage"
    else if indicator = "major" then "Major Outage"
    else if indicator = "minor" then "Minor Outage"
    else "All Systems Operational"
  -- `unresolved?.incidents` ([] plays the role of a falsy length)
  let uincs : List Incident := match unresolved with
    | some u => u.incidents
    | none => []
  let ongoingSince :=
    if indicator ≠ "none" ∧ uincs ≠ [] then
      -- outage: since the earliest unresolved incident started
      ((uincs.map (·.started_at)).min?).getD now
    else if uincs ≠ [] then
      -- operational, incidents not formally closed: latest update
      ((uincs.map (·.updated_at)).max?).getD now
    else if incidents ≠ [] then
      -- all closed: latest resolution; `Math.max(..., 0) || now`
      let m := (incidents.filterMap (·.resolved_at)).foldl max 0
      if m = 0 then now else m
    else now
  let durationMs := now - ongoingSince
  let duration :=
    if durationMs < 3600000 then
      "for " ++ toString (max 1 (jsRound durationMs 60000)) ++ " min"
    else if durationMs < 86400000 then
      "for " ++ toString (jsRound durationMs 3600000) ++ " hr"
    else
      "for " ++ toString (jsRound durationMs 86400000) ++ " days"
  ⟨duration, indicator, label⟩

-- –
-- Backfill scraper (scrape.ts)
-- –

/-- `interface HistoryIncident`. -/
structure HistoryIncident where
  code : String
  impact : String
  name : String
  deriving Repr, DecidableEq

/-- `interface HistoryMonth` (year as an integer). -/
structure HistoryMonth where
  days : Int
  incidents : List HistoryIncident
  name : String
  starts_on : Int
  year : Int
  deriving Repr, DecidableEq

/-- `const CUTOFF_YEAR = 2025`. -/
def CUTOFF_YEAR : Int := 2025

/-- Does `pat` occur at the head of `l`? -/
def startsWith : List Char → List Char → Bool
  | [], _ => true
  | _ :: _, [] => false
  | p :: ps, c :: cs => p = c && startsWith ps cs

/-- The literal before the capture group of the extraction regex
`/&quot;months&quot;:\[(.*?)\],&quot;show_component_filter/`. -/
def monthsOpen : List Char :=
  "&quot;months&quot;:[".data

/-- The literal after the capture group of the extraction regex. -/
def monthsClose : List Char :=
  "],&quot;show_component_filter".data

/-- The lazy group `(.*?)`: the shortest run of non-line-terminator
characters after which the closing literal matches. -/
def lazyGroup (close : List Char) : List Char → Option (List Char)
  | [] => if startsWith close [] then some [] else none
  | c :: cs =>
    if startsWith close (c :: cs) then some []
    else if c = '\n' ∨ c = '\r' then none
    else (lazyGroup close cs).map (fun g => c :: g)

/-- Leftmost match of the extraction regex: try each position in turn;
at a position where the opening literal matches, take the lazy group if
one completes before a line terminator. -/
def matchFrom : List Char → Option (List Char)
  | [] => if startsWith monthsOpen [] then lazyGroup monthsClose [] else none
  | c :: cs =>
    match (if startsWith monthsOpen (c :: cs) then
             lazyGroup monthsClose ((c :: cs).drop monthsOpen.length)
           else none) with
    | some g => some g
    | none => matchFrom cs

/-- `html.match(/&quot;months&quot;:\[(.*?)\],&quot;show_component_filter/)`,
returning the captured group. -/
def matchMonths (html : String) : Option String :=
  (matchFrom html.data).map (fun g => ⟨g⟩)

/-- Does `pat` occur anywhere in `l`? -/
def hasSeq (pat : List Char) : List Char → Bool
  | [] => startsWith pat []
  | c :: cs => startsWith pat (c :: cs) || hasSeq pat cs

/-- `.replace(/&quot;/g, '"').replace(/&#39;/g, "'")`: replace every
occurrence of a (nonempty) pattern `p :: ps`. -/
def replaceSeq (p : Char) (ps repl : List Char) : List Char → List Char
  | [] => []
  | c :: cs =>
    if startsWith (p :: ps) (c :: cs) then
      repl ++ replaceSeq p ps repl (cs.drop ps.length)
    else c :: replaceSeq p ps repl cs
termination_by l => l.length
decreasing_by
  · simp only [List.length_cons]
    have := List.length_drop ps.length cs
    omega
  · simp

/-- The entity decoding applied to the captured group. -/
def decodeEntities (g : List Char) : List Char :=
  replaceSeq '&' "quot;".data "\"".data (replaceSeq '&' "#39;".data "'".data g)

/-- `parseMonths`: extract the embedded months JSON from a history
page's HTML.  `jsonDec` stands for the `JSON.parse` platform primitive
(an `.error` models a thrown exception); no match returns `[]`. -/
def parseMonths (jsonDec : String → Except String (List HistoryMonth))
    (html : String) : Except String (List HistoryMonth) :=
  match matchMonths html with
  | none => .ok []
  | some g => jsonDec ("[" ++ ⟨decodeEntities g.data⟩ ++ "]")

/-- The candidate-collection loop of the scraper: for each month not
before the cutoff year, the codes of its incidents not already in the
store. -/
def candidateCodes (months : List HistoryMonth) (existing : List String) :
    List String :=
  (months.filter (fun m => CUTOFF_YEAR ≤ m.year)).flatMap
    (fun m => (m.incidents.filter (fun i => i.code ∉ existing)).map (·.code))

/-- `[...new Set(codes)]`: deduplication preserving first occurrences. -/
def dedupAux (seen : List String) : List String → List String
  | [] => []
  | x :: xs => if x ∈ seen then dedupAux seen xs else x :: dedupAux (x :: seen) xs

/-- `codes = [...new Set(codes)]`. -/
def dedupFirst (l : List String) : List String :=
  dedupAux [] l

/-- The deduplicated list of incident codes the scraper fetches details
for, given the months of all scraped pages (in page order) and the ids
already present in the store. -/
def backfillCodes (months : List HistoryMonth) (existing : List String) :
    List String :=
  dedupFirst (candidateCodes months existing)

/-- The detail-fetch batches: `codes.slice(i, i + BATCH)` for
`i = 0, 5, 10, ...` (`const BATCH = 5`). -/
def fetchBatches (codes : List String) : List (List String) :=
  chunksFold 5 codes

-- –
-- Spec-side comparison definitions
-- –

/-- The quantity the spec says `maxSeverity` equals, stated from the
spec's words: the maximum single-day severity taken over the days of
the displayed window (`weeks`), floored at 1. -/
def specWindowMaxSeverity (H : HeatmapResult) : Nat :=
  H.weeks.flatten.foldl (fun a d => max a d.severity) 1

/-- A stored incident dated 1970-01-01 (epoch 0), far outside every
recent one-year window. -/
def oldIncident : Incident :=
  ⟨0, "old", "critical", "old incident", none, "link", 0, "resolved", 0⟩

-- –
-- Lemmas: the chunking loop
-- –

/-- Invariant of the accumulate-and-flush loop: starting from flushed
chunks `ws` and a partial chunk `cw` shorter than `width`, the loop
preserves order and content, the partial chunk tracks the residue
modulo `width`, the flushed count tracks the quotient, and every
flushed chunk has exactly `width` elements. -/
lemma foldl_chunkStep_spec {α : Type} (w : Nat) (days : List α) :
    ∀ (ws : List (List α)) (cw : List α), cw.length < w →
    ((days.foldl (chunkStep w) (ws, cw)).1.flatten ++ (days.foldl (chunkStep w) (ws, cw)).2
        = ws.flatten ++ cw ++ days)
    ∧ (days.foldl (chunkStep w) (ws, cw)).2.length = (cw.length + days.length) % w
    ∧ (days.foldl (chunkStep w) (ws, cw)).1.length = ws.length + (cw.length + days.length) / w
    ∧ ∀ x ∈ (days.foldl (chunkStep w) (ws, cw)).1, x ∈ ws ∨ x.length = w := by
  induction days with
  | nil =>
    intro ws cw h
    refine ⟨by simp, ?_, ?_, fun x hx => Or.inl hx⟩
    · simp [Nat.mod_eq_of_lt h]
    · simp [Nat.div_eq_of_lt h]
  | cons d rest ih =>
    intro ws cw h
    have hw : 0 < w := Nat.pos_of_ne_zero (by omega)
    rw [List.foldl_cons]
    by_cases hc : (cw ++ [d]).length = w
    · have hstep : chunkStep w (ws, cw) d = (ws ++ [cw ++ [d]], []) := by
        simp [chunkStep, hc]
      rw [hstep]
      obtain ⟨h1, h2, h3, h4⟩ := ih (ws ++ [cw ++ [d]]) [] hw
      simp only [List.length_append, List.length_cons, List.length_nil] at hc ⊢
      refine ⟨?_, ?_, ?_, ?_⟩
      · rw [h1]; simp
      · rw [h2]
        have e : cw.length + (rest.length + 1) = rest.length + w := by omega
        simp only [List.length_nil, Nat.zero_add, e, Nat.add_mod_right]
      · rw [h3]
        have e : cw.length + (rest.length + 1) = rest.length + w := by omega
        simp only [List.length_nil, Nat.zero_add, List.length_append, List.length_cons, e,
          Nat.add_div_right _ hw]
        omega
      · intro x hx
        rcases h4 x hx with hx' | hx'
        · rcases List.mem_append.mp hx' with hx'' | hx''
          · exact Or.inl hx''
          · right
            have : x = cw ++ [d] := by simpa using hx''
            simp [this, hc]
        · exact Or.inr hx'
    · have hlt : (cw ++ [d]).length < w := by
        simp only [List.length_append, List.length_cons, List.length_nil] at hc ⊢
        omega
      have hstep : chunkStep w (ws, cw) d = (ws, cw ++ [d]) := by
        simp only [chunkStep, if_neg hc]
      rw [hstep]
      obtain ⟨h1, h2, h3, h4⟩ := ih ws (cw ++ [d]) hlt
      refine ⟨?_, ?_, ?_, h4⟩
      · rw [h1]; simp
      · rw [h2]; simp only [List.length_append, List.length_cons, List.length_nil]
        congr 1; omega
      · rw [h3]; simp only [List.length_append, List.length_cons, List.length_nil]
        congr 2; omega

/-- The chunks of a list concatenate back to the list. -/
lemma chunksFold_join {α : Type} (w : Nat) (hw : 0 < w) (l : List α) :
    (chunksFold w l).flatten = l := by
  obtain ⟨h1, -, -, -⟩ := foldl_chunkStep_spec w l [] [] hw
  simp only [chunksFold]
  rcases hp : (l.foldl (chunkStep w) ([], [])).2 with _ | ⟨c, cs⟩
  · rw [hp] at h1; simpa using h1
  · rw [hp] at h1
    simp only [List.flatten_append, List.flatten_cons, List.flatten_nil, List.append_nil]
    simpa using h1

/-- Every chunk is nonempty and at most `width` long. -/
lemma chunksFold_mem_length {α : Type} (w : Nat) (hw : 0 < w) (l : List α) :
    ∀ x ∈ chunksFold w l, 0 < x.length ∧ x.length ≤ w := by
  obtain ⟨-, h2, -, h4⟩ := foldl_chunkStep_spec w l [] [] hw
  intro x hx
  simp only [chunksFold] at hx
  rcases hp : (l.foldl (chunkStep w) ([], [])).2 with _ | ⟨c, cs⟩ <;> rw [hp] at hx
  · rcases h4 x hx with h | h
    · simp at h
    · omega
  · rcases List.mem_append.mp hx with h | h
    · rcases h4 x h with h' | h'
      · simp at h'
      · omega
    · have hxc : x = c :: cs := by simpa using h
      have : x.length = (0 + l.length) % w := by rw [hxc, ← hp, h2]; simp
      have hlt : (0 + l.length) % w < w := Nat.mod_lt _ hw
      subst hxc
      simp only [List.length_cons] at this ⊢
      omega

/-- All chunks but possibly the last have exactly `width` elements. -/
lemma chunksFold_dropLast {α : Type} (w : Nat) (hw : 0 < w) (l : List α) :
    ∀ x ∈ (chunksFold w l).dropLast, x.length = w := by
  obtain ⟨-, -, -, h4⟩ := foldl_chunkStep_spec w l [] [] hw
  intro x hx
  simp only [chunksFold] at hx
  rcases hp : (l.foldl (chunkStep w) ([], [])).2 with _ | ⟨c, cs⟩ <;> rw [hp] at hx
  · have := (List.dropLast_sublist _).subset hx
    rcases h4 x this with h | h
    · simp at h
    · exact h
  · rw [List.dropLast_concat] at hx
    rcases h4 x hx with h | h
    · simp at h
    · exact h

/-- Number of chunks of width 7: the ceiling of the length over 7. -/
lemma chunksFold7_length {α : Type} (l : List α) :
    (chunksFold 7 l).length = (l.length + 6) / 7 := by
  obtain ⟨-, h2, h3, -⟩ := foldl_chunkStep_spec 7 l [] [] (by simp)
  have h3' : (l.foldl (chunkStep 7) ([], [])).1.length = l.length / 7 := by
    simpa using h3
  have h2' : (l.foldl (chunkStep 7) ([], [])).2.length = l.length % 7 := by
    simpa using h2
  simp only [chunksFold]
  rcases hp : (l.foldl (chunkStep 7) ([], [])).2 with _ | ⟨c, cs⟩ <;> rw [hp] at h2'
  · have hmod : l.length % 7 = 0 := by simpa using h2'.symm
    rw [h3']
    omega
  · have hmod : l.length % 7 = cs.length + 1 := by simpa using h2'.symm
    simp only [List.length_append, List.length_cons, List.length_nil, h3']
    omega

-- –
-- Lemmas: day ranges and day cells
-- –

/-- Length of the inclusive day range. -/
lemma dayRange_length (s t : Int) : (dayRange s t).length = (t - s + 1).toNat := by
  rw [dayRange, List.length_map, List.length_range]

/-- Membership in the day range is the inclusive interval. -/
lemma mem_dayRange {s t d : Int} (h : d ∈ dayRange s t) : s ≤ d ∧ d ≤ t := by
  rw [dayRange] at h
  obtain ⟨k, hk, rfl⟩ := List.mem_map.mp h
  rw [List.mem_range] at hk
  omega

/-- The day range has no duplicate entries. -/
lemma dayRange_nodup (s t : Int) : (dayRange s t).Nodup := by
  rw [dayRange]
  refine List.Nodup.map ?_ (List.nodup_range _)
  intro a b hab
  have h2 : s + (a : Int) = s + (b : Int) := hab
  omega

/-- A generated cell carries the day it was generated for. -/
lemma mkDay_date (m : List (Int × DayData)) (d : Int) : (mkDay m d).date = d := by
  unfold mkDay
  rcases h : lookupDay m d with - | dd <;> simp

/-- A generated cell for a day absent from the day map is all-zero. -/
lemma mkDay_zero {m : List (Int × DayData)} {d : Int} (h : lookupDay m d = none) :
    mkDay m d = ⟨0, d, [], 0⟩ := by
  unfold mkDay
  rw [h]

/-- A generated cell's severity is the day's severity in the map. -/
lemma mkDay_severity (m : List (Int × DayData)) (d : Int) :
    (mkDay m d).severity = daySeverity m d := by
  unfold mkDay daySeverity
  rcases h : lookupDay m d with - | dd <;> simp

-- –
-- Lemmas: the heatmap grid
-- –

/-- The flattened grid is exactly one cell per day of the window, in
order. -/
lemma heatmap_flatten (rows : List Incident) (nowMs : Int) :
    (heatmap rows nowMs).weeks.flatten
      = (dayRange (weekStartOf nowMs) (todayOf nowMs)).map (mkDay (buildDayMap rows)) := by
  unfold heatmap
  exact chunksFold_join 7 (by omega) _

/-- The number of week rows is the day count divided by 7, rounded up. -/
lemma heatmap_weeks_length (rows : List Incident) (nowMs : Int) :
    (heatmap rows nowMs).weeks.length
      = ((todayOf nowMs - weekStartOf nowMs + 1).toNat + 6) / 7 := by
  unfold heatmap
  rw [chunksFold7_length]
  simp [dayRange_length]

/-- The dates of the flattened grid are exactly the window's days. -/
lemma heatmap_dates (rows : List Incident) (nowMs : Int) :
    (heatmap rows nowMs).weeks.flatten.map HeatmapDay.date
      = dayRange (weekStartOf nowMs) (todayOf nowMs) := by
  rw [heatmap_flatten, List.map_map]
  have : (HeatmapDay.date ∘ mkDay (buildDayMap rows)) = id := by
    funext d
    simp [mkDay_date]
  rw [this, List.map_id]

-- –
-- Lemmas: folded maxima (`Math.max(...xs, init)`)
-- –

/-- The fold only grows the initial value. -/
lemma foldl_max_init {α : Type} (g : α → Nat) (l : List α) :
    ∀ a : Nat, a ≤ l.foldl (fun x y => max x (g y)) a := by
  induction l with
  | nil => intro a; simp
  | cons y ys ih =>
    intro a
    calc a ≤ max a (g y) := le_max_left _ _
    _ ≤ ys.foldl (fun x y => max x (g y)) (max a (g y)) := ih _

/-- Every listed value is bounded by the folded maximum. -/
lemma foldl_max_le {α : Type} (g : α → Nat) (l : List α) :
    ∀ (a : Nat), ∀ y ∈ l, g y ≤ l.foldl (fun x y => max x (g y)) a := by
  induction l with
  | nil => intro a y hy; simp at hy
  | cons z zs ih =>
    intro a y hy
    rcases List.mem_cons.mp hy with rfl | hy'
    · calc g y ≤ max a (g y) := le_max_right _ _
      _ ≤ zs.foldl (fun x y => max x (g y)) (max a (g y)) := foldl_max_init g zs _
    · exact ih _ y hy'

/-- The folded maximum is the initial value or one of the listed
values. -/
lemma foldl_max_cases {α : Type} (g : α → Nat) (l : List α) :
    ∀ a : Nat, l.foldl (fun x y => max x (g y)) a = a
      ∨ ∃ y ∈ l, l.foldl (fun x y => max x (g y)) a = g y := by
  induction l with
  | nil => intro a; left; rfl
  | cons z zs ih =>
    intro a
    rcases ih (max a (g z)) with h | ⟨y, hy, h⟩
    · simp only [List.foldl_cons]
      rcases max_cases a (g z) with ⟨he, -⟩ | ⟨he, -⟩
      · left; rw [h, he]
      · right; exact ⟨z, List.mem_cons_self _ _, by rw [h, he]⟩
    · right
      exact ⟨y, List.mem_cons_of_mem _ hy, by simpa using h⟩

-- –
-- Lemmas: day-map building
-- –

/-- Adding an incident to a day raises exactly that day's severity by
the incident's weight. -/
lemma addToDay_severity (m : List (Int × DayData)) (k : Int) (i : Incident) :
    daySeverity (addToDay m k i) k = daySeverity m k + incidentWeight i := by
  induction m with
  | nil => simp [addToDay, daySeverity, lookupDay]
  | cons p rest ih =>
    obtain ⟨k', d⟩ := p
    by_cases hk : k' = k
    · subst hk
      simp [addToDay, daySeverity, lookupDay]
    · simp only [addToDay, if_neg hk]
      simpa [daySeverity, lookupDay, hk] using ih

/-- Adding an incident to a day records it in that day's membership. -/
lemma addToDay_mem (m : List (Int × DayData)) (k : Int) (i : Incident) :
    i ∈ dayIncidents (addToDay m k i) k := by
  induction m with
  | nil => simp [addToDay, dayIncidents, lookupDay]
  | cons p rest ih =>
    obtain ⟨k', d⟩ := p
    by_cases hk : k' = k
    · subst hk
      simp [addToDay, dayIncidents, lookupDay]
    · simp only [addToDay, if_neg hk]
      simpa [dayIncidents, lookupDay, hk] using ih

/-- Building the day map over one more incident is one `addToDay`. -/
lemma buildDayMap_append (incs : List Incident) (i : Incident) :
    buildDayMap (incs ++ [i]) = addToDay (buildDayMap incs) (dayKey i) i := by
  unfold buildDayMap
  rw [List.foldl_append]
  rfl

/-- Flattening a list of lists of constant length `n` multiplies. -/
lemma flatten_length_const {α : Type} (n : Nat) :
    ∀ ls : List (List α), (∀ w ∈ ls, w.length = n) →
      ls.flatten.length = n * ls.length := by
  intro ls
  induction ls with
  | nil => intro _; simp
  | cons w ws ih =>
    intro h
    have hw : w.length = n := h w (List.mem_cons_self _ _)
    have hws : ∀ x ∈ ws, x.length = n := fun x hx => h x (List.mem_cons_of_mem _ hx)
    simp only [List.flatten_cons, List.length_append, List.length_cons, ih hws, hw]
    ring

-- –
-- Claim theorems
-- –

/-- C1: upserting an incident record into the store twice (the
`INSERT OR REPLACE` statement used by `sync` and by the backfill
scraper) yields exactly one stored row for that id, whose field values
are those of the second write, and the double upsert equals the single
upsert (idempotence for identical input: no duplication, no drift). -/
theorem upsert_twice_idempotent (rows : List Incident) (i : Incident) :
    (upsert (upsert rows i) i).filter (fun r => r.id = i.id) = [i]
    ∧ upsert (upsert rows i) i = upsert rows i := by
  have hfi : [i].filter (fun r : Incident => r.id ≠ i.id) = [] := by simp
  have hcontra : (rows.filter (fun r : Incident => r.id ≠ i.id)).filter
      (fun r : Incident => r.id = i.id) = [] := by
    rw [List.filter_eq_nil_iff]
    intro a ha
    have h2 := (List.mem_filter.mp ha).2
    simp only [decide_eq_true_eq] at h2 ⊢
    exact h2
  have hidem : (rows.filter (fun r : Incident => r.id ≠ i.id)).filter
      (fun r : Incident => r.id ≠ i.id) = rows.filter (fun r : Incident => r.id ≠ i.id) := by
    rw [List.filter_eq_self]
    intro a ha
    exact (List.mem_filter.mp ha).2
  constructor
  · show ((upsert rows i).filter (fun r => r.id ≠ i.id) ++ [i]).filter
        (fun r => r.id = i.id) = [i]
    rw [List.filter_append]
    show ((rows.filter (fun r : Incident => r.id ≠ i.id) ++ [i]).filter (fun r => r.id ≠ i.id)).filter
        (fun r => r.id = i.id) ++ _ = [i]
    rw [List.filter_append, hfi, List.append_nil, hidem, hcontra]
    simp
  · show ((rows.filter (fun r : Incident => r.id ≠ i.id) ++ [i]).filter (fun r => r.id ≠ i.id)) ++ [i]
        = rows.filter (fun r : Incident => r.id ≠ i.id) ++ [i]
    rw [List.filter_append, hfi, List.append_nil, hidem]

/-- C2: for every key and fetch function, if a cache entry exists and
its age (`now - fetched_at`) is below the TTL, `cached` returns the
stored entry's value without invoking the fetch function at all (call
count 0) and leaves the row unchanged — in both the
stale-while-revalidate and the blocking variant. -/
theorem cached_fresh_hit {α : Type} (dec : String → α) (enc : α → String)
    (now writeAt : Int) (r : CacheRow) (fn : Except Unit α)
    (h : now - r.fetched_at < TTL) :
    cachedSWR dec enc now writeAt (some r) fn = (some (dec r.value), some r, 0)
    ∧ cachedBlocking dec enc now writeAt (some r) fn = (some (dec r.value), some r, 0) := by
  constructor
  · unfold cachedSWR
    simp [h]
  · unfold cachedBlocking
    simp [h]

/-- C2 witness: a concrete fresh hit (age 0 < TTL) serves the stored
value `"v"` with zero fetch invocations, in both variants. -/
theorem cached_fresh_hit_witness :
    cachedSWR id id 0 0 (some ⟨"v", 0⟩) (Except.error ()) = (some "v", some ⟨"v", 0⟩, 0)
    ∧ cachedBlocking id id 0 0 (some ⟨"v", 0⟩) (Except.error ()) = (some "v", some ⟨"v", 0⟩, 0) :=
  cached_fresh_hit id id 0 0 ⟨"v", 0⟩ (Except.error ()) (by decide)

/-- C3: if the fetch function fails (rejected promise) and a prior
cache entry exists, `cached` returns that prior entry's value rather
than an error, and the failed fetch leaves the existing cache row
unchanged — in both variants. -/
theorem cached_failure_serves_stale {α : Type} (dec : String → α) (enc : α → String)
    (now writeAt : Int) (r : CacheRow) :
    (cachedSWR dec enc now writeAt (some r) (Except.error ())).1 = some (dec r.value)
    ∧ (cachedSWR dec enc now writeAt (some r) (Except.error ())).2.1 = some r
    ∧ (cachedBlocking dec enc now writeAt (some r) (Except.error ())).1 = some (dec r.value)
    ∧ (cachedBlocking dec enc now writeAt (some r) (Except.error ())).2.1 = some r := by
  unfold cachedSWR cachedBlocking
  by_cases h : now - r.fetched_at < TTL <;> simp [h]

/-- C4: if no cache entry exists for the key and the fetch function
fails, `cached` resolves to `null` (an explicit empty result, no
exception escaping) and writes nothing — in both variants. -/
theorem cached_cold_failure {α : Type} (dec : String → α) (enc : α → String)
    (now writeAt : Int) :
    cachedSWR dec enc now writeAt none (Except.error ()) = (none, none, 1)
    ∧ cachedBlocking dec enc now writeAt none (Except.error ()) = (none, none, 1) := by
  constructor
  · unfold cachedSWR
    simp
  · unfold cachedBlocking
    simp

/-- C5 (amended): for every set of stored rows and every "now", the
heatmap's weeks cover exactly the UTC days from the week-aligned start
(the Sunday on or before one year before today) through today
inclusive, in order, with no gaps and no duplicate dates and with
absent days zero-filled; the number of weeks is
`ceil((today - weekStart + 1) / 7)`; every week has exactly 7 cells
except possibly the final one, which has between 1 and 7. -/
theorem heatmap_grid_structure (rows : List Incident) (nowMs : Int) :
    (heatmap rows nowMs).weeks.flatten.map HeatmapDay.date
        = dayRange (weekStartOf nowMs) (todayOf nowMs)
    ∧ (heatmap rows nowMs).weeks.length
        = ((todayOf nowMs - weekStartOf nowMs + 1).toNat + 6) / 7
    ∧ (∀ w ∈ (heatmap rows nowMs).weeks.dropLast, w.length = 7)
    ∧ (∀ w ∈ (heatmap rows nowMs).weeks, 0 < w.length ∧ w.length ≤ 7)
    ∧ ((heatmap rows nowMs).weeks.flatten.map HeatmapDay.date).Nodup
    ∧ dow (weekStartOf nowMs) = 0
    ∧ weekStartOf nowMs ≤ oneYearAgoOf nowMs
    ∧ (∀ hd ∈ (heatmap rows nowMs).weeks.flatten,
        lookupDay (buildDayMap rows) hd.date = none →
          hd.severity = 0 ∧ hd.count = 0 ∧ hd.incidents = []) := by
  refine ⟨heatmap_dates rows nowMs, heatmap_weeks_length rows nowMs, ?_, ?_, ?_, ?_, ?_, ?_⟩
  · exact chunksFold_dropLast 7 (by omega) _
  · exact chunksFold_mem_length 7 (by omega) _
  · rw [heatmap_dates]
    exact dayRange_nodup _ _
  · unfold weekStartOf dow
    omega
  · unfold weekStartOf dow
    omega
  · intro hd hmem h0
    rw [heatmap_flatten] at hmem
    obtain ⟨d, -, rfl⟩ := List.mem_map.mp hmem
    rw [mkDay_date] at h0
    rw [mkDay_zero h0]
    exact ⟨rfl, rfl, rfl⟩

/-- C5 counterexample: at `now` = 2024-01-07T00:00Z (a Sunday), the
grid has 54 weeks while the claimed formula `ceil((365 + leadDays)/7)`
gives 53, and not every week has exactly 7 cells (the final week has
1). -/
theorem heatmap_grid_counterexample :
    (heatmap [] 1704585600000).weeks.length ≠ (365 + leadDaysOf 1704585600000 + 6) / 7
    ∧ ¬ (∀ w ∈ (heatmap [] 1704585600000).weeks, w.length = 7) := by
  have hlen : (heatmap [] 1704585600000).weeks.length = 54 := by
    rw [heatmap_weeks_length]
    decide
  constructor
  · rw [hlen]
    decide
  · intro hall
    have hjl : (heatmap [] 1704585600000).weeks.flatten.length = 372 := by
      rw [heatmap_flatten, List.length_map, dayRange_length]
      decide
    have := flatten_length_const 7 (heatmap [] 1704585600000).weeks hall
    rw [hjl, hlen] at this
    omega

/-- C6 (amended): `maxSeverity` is the maximum single-day severity
taken over all days carrying at least one stored incident — the whole
store's `dayMap`, not only the one-year display window — floored at 1:
it is at least 1, bounds every day's severity, and is 1 or attained by
some day of the `dayMap`. -/
theorem maxSeverity_characterization (rows : List Incident) (nowMs : Int) :
    1 ≤ (heatmap rows nowMs).maxSeverity
    ∧ (∀ p ∈ (heatmap rows nowMs).dayMap, p.2.severity ≤ (heatmap rows nowMs).maxSeverity)
    ∧ ((heatmap rows nowMs).maxSeverity = 1
        ∨ ∃ p, p ∈ (heatmap rows nowMs).dayMap
            ∧ p.2.severity = (heatmap rows nowMs).maxSeverity) := by
  have hd : (heatmap rows nowMs).dayMap = buildDayMap rows := rfl
  have hm : (heatmap rows nowMs).maxSeverity
      = (buildDayMap rows).foldl
          (fun a p => max a ((fun q : Int × DayData => q.2.severity) p)) 1 := rfl
  refine ⟨?_, ?_, ?_⟩
  · rw [hm]
    exact foldl_max_init (fun q : Int × DayData => q.2.severity) _ 1
  · intro p hp
    rw [hd] at hp
    rw [hm]
    exact foldl_max_le (fun q : Int × DayData => q.2.severity) _ 1 p hp
  · rw [hd, hm]
    rcases foldl_max_cases (fun q : Int × DayData => q.2.severity) (buildDayMap rows) 1
        with h | ⟨p, hp, h⟩
    · exact Or.inl h
    · exact Or.inr ⟨p, hp, h.symm⟩

/-- C6 counterexample: with one stored incident dated 1970-01-01
(impact `critical`, weight 4) and `now` = 2024-01-07T00:00Z, the code's
`maxSeverity` is 4 while the maximum single-day severity over the
one-year display window, floored at 1, is 1. -/
theorem maxSeverity_counterexample :
    (heatmap [oldIncident] 1704585600000).maxSeverity
      ≠ specWindowMaxSeverity (heatmap [oldIncident] 1704585600000) := by
  have h1 : (heatmap [oldIncident] 1704585600000).maxSeverity = 4 := by decide
  have h2 : specWindowMaxSeverity (heatmap [oldIncident] 1704585600000) = 1 := by
    unfold specWindowMaxSeverity
    rw [heatmap_flatten]
    rcases foldl_max_cases HeatmapDay.severity
        ((dayRange (weekStartOf 1704585600000) (todayOf 1704585600000)).map
          (mkDay (buildDayMap [oldIncident]))) 1 with h | ⟨y, hy, h⟩
    · exact h
    · exfalso
      obtain ⟨d, hd, rfl⟩ := List.mem_map.mp hy
      have hge : (19358 : Int) ≤ d := by
        have hmem := (mem_dayRange hd).1
        rw [show weekStartOf 1704585600000 = 19358 from by decide] at hmem
        exact hmem
      have hlk : lookupDay (buildDayMap [oldIncident]) d = none := by
        rw [show buildDayMap [oldIncident] = [(0, ⟨4, [oldIncident]⟩)] from by decide]
        have hne : (0 : Int) ≠ d := by omega
        simp [lookupDay, hne]
      have hz : (mkDay (buildDayMap [oldIncident]) d).severity = 0 := by
        rw [mkDay_zero hlk]
      have hge1 := foldl_max_init HeatmapDay.severity
          ((dayRange (weekStartOf 1704585600000) (todayOf 1704585600000)).map
            (mkDay (buildDayMap [oldIncident]))) 1
      rw [h, hz] at hge1
      omega
  rw [h1, h2]
  decide

/-- Mapping a projection commutes with filtering on it. -/
lemma map_code_filter (p : String → Bool) (incs : List HistoryIncident) :
    (incs.filter (fun i => p i.code)).map (·.code)
      = (incs.map (·.code)).filter p := by
  induction incs with
  | nil => rfl
  | cons a l ih =>
    by_cases h : p a.code <;> simp [h, ih]

/-- Filtering commutes with flat-mapping. -/
lemma filter_flatMap {α β : Type} (l : List α) (f : α → List β) (p : β → Bool) :
    (l.flatMap f).filter p = l.flatMap (fun a => (f a).filter p) := by
  induction l with
  | nil => rfl
  | cons a l ih =>
    simp only [List.flatMap_cons, List.filter_append, ih]

/-- The per-incident store-membership check factors out of the
candidate collection. -/
lemma candidateCodes_eq (months : List HistoryMonth) (existing : List String) :
    candidateCodes months existing
      = ((months.filter (fun m => CUTOFF_YEAR ≤ m.year)).flatMap
          (fun m => m.incidents.map (·.code))).filter
            (fun c => decide (c ∉ existing)) := by
  unfold candidateCodes
  rw [filter_flatMap]
  congr 1
  funext m
  exact map_code_filter (fun c => decide (c ∉ existing)) m.incidents

/-- C7: if the incident codes of the qualifying months across the
scraped pages are `[A, B, A, C]` with `B` already stored and `A`, `C`
not, the scraper fetches details for exactly `[A, C]` — codes already
stored are excluded, the rest deduplicated, each fetched exactly once
(also after the batch slicing). -/
theorem scraper_dedup (A B C : String) (existing : List String)
    (months : List HistoryMonth)
    (hAC : A ≠ C) (hA : A ∉ existing) (hB : B ∈ existing) (hC : C ∉ existing)
    (h : (months.filter (fun m => CUTOFF_YEAR ≤ m.year)).flatMap
          (fun m => m.incidents.map (·.code)) = [A, B, A, C]) :
    backfillCodes months existing = [A, C]
    ∧ (fetchBatches (backfillCodes months existing)).flatten = [A, C]
    ∧ (backfillCodes months existing).count A = 1
    ∧ (backfillCodes months existing).count C = 1 := by
  have hcand : candidateCodes months existing = [A, A, C] := by
    rw [candidateCodes_eq, h]
    simp [hA, hB, hC]
  have hmain : backfillCodes months existing = [A, C] := by
    unfold backfillCodes
    rw [hcand]
    unfold dedupFirst
    simp [dedupAux, Ne.symm hAC]
  refine ⟨hmain, ?_, ?_, ?_⟩
  · rw [hmain]
    exact chunksFold_join 5 (by omega) _
  · rw [hmain]
    simp [List.count_cons, Ne.symm hAC]
  · rw [hmain]
    simp [List.count_cons, hAC]

/-- C8: when the live indicator is not "none" and unresolved incidents
exist, the duration anchor is the earliest `started_at` among them and
elapsed times in `[1 hr, 1 day)` format as rounded hours; in
particular, indicator "major" with one unresolved incident started 3
hours ago yields label "Major Outage" and duration "for 3 hr". -/
theorem statusInfo_outage_duration :
    (∀ (now : Int) (st : StatusResponse) (u : UnresolvedResponse)
        (incs : List Incident) (a : Int),
      st.status.indicator ≠ "none" →
      (u.incidents.map (·.started_at)).min? = some a →
      3600000 ≤ now - a → now - a < 86400000 →
      (statusInfo now (some st) (some u) incs).duration
        = "for " ++ toString (jsRound (now - a) 3600000) ++ " hr")
    ∧ (∀ (now : Int) (st : StatusResponse) (i : Incident) (incs : List Incident),
      st.status.indicator = "major" → i.started_at = now - 10800000 →
      (statusInfo now (some st) (some ⟨[i]⟩) incs).label = "Major Outage"
      ∧ (statusInfo now (some st) (some ⟨[i]⟩) incs).duration = "for 3 hr") := by
  have hgen : ∀ (now : Int) (st : StatusResponse) (u : UnresolvedResponse)
      (incs : List Incident) (a : Int),
      st.status.indicator ≠ "none" →
      (u.incidents.map (·.started_at)).min? = some a →
      3600000 ≤ now - a → now - a < 86400000 →
      (statusInfo now (some st) (some u) incs).duration
        = "for " ++ toString (jsRound (now - a) 3600000) ++ " hr" := by
    intro now st u incs a hind hmin hlo hhi
    have hne : u.incidents ≠ [] := by
      intro hnil
      rw [hnil] at hmin
      simp at hmin
    unfold statusInfo
    simp only []
    rw [if_pos (show st.status.indicator ≠ "none" ∧ u.incidents ≠ [] from ⟨hind, hne⟩),
      hmin, Option.getD_some, if_neg (show ¬ now - a < 3600000 by omega), if_pos hhi]
  refine ⟨hgen, ?_⟩
  intro now st i incs hmaj hstart
  constructor
  · unfold statusInfo
    simp [hmaj]
  · have hm : (([i] : List Incident).map (·.started_at)).min? = some i.started_at := rfl
    have hd := hgen now st ⟨[i]⟩ incs i.started_at
      (by rw [hmaj]; decide) hm (by omega) (by omega)
    have harith : now - i.started_at = 10800000 := by omega
    rw [harith] at hd
    rw [hd]
    rfl

/-- A successful leftmost match implies the opening literal occurs in
the input. -/
lemma hasSeq_of_matchFrom (l : List Char) (g : List Char)
    (h : matchFrom l = some g) : hasSeq monthsOpen l = true := by
  induction l with
  | nil =>
    unfold matchFrom at h
    by_cases hs : startsWith monthsOpen [] = true
    · unfold hasSeq
      exact hs
    · rw [if_neg hs] at h
      exact absurd h (by simp)
  | cons c cs ih =>
    unfold matchFrom at h
    unfold hasSeq
    by_cases hs : startsWith monthsOpen (c :: cs) = true
    · rw [hs, Bool.true_or]
    · rw [if_neg hs] at h
      simp only at h
      rw [Bool.or_eq_true]
      exact Or.inr (ih h)

/-- C9: for every history-page HTML body in which listing extraction
finds no embedded months data, `parseMonths` returns the empty list and
raises no error (whatever `JSON.parse` would do); in particular a page
that nowhere contains the opening marker of the embedded listing yields
no match. -/
theorem parseMonths_no_listing :
    (∀ (jsonDec : String → Except String (List HistoryMonth)) (html : String),
      matchMonths html = none → parseMonths jsonDec html = .ok [])
    ∧ (∀ html : String, hasSeq monthsOpen html.data = false → matchMonths html = none) := by
  constructor
  · intro jsonDec html h
    unfold parseMonths
    rw [h]
  · intro html h
    unfold matchMonths
    rcases hm : matchFrom html.data with - | g
    · rfl
    · rw [hasSeq_of_matchFrom html.data g hm] at h
      exact absurd h (by simp)

/-- C9 witness: a concrete page with no embedded listing parses to the
empty month list under a `JSON.parse` that would throw. -/
theorem parseMonths_no_listing_witness :
    parseMonths (fun _ => .error "boom") "<html>no data here</html>" = .ok []
    ∧ matchMonths "<html>no data here</html>" = none :=
  ⟨parseMonths_no_listing.1 (fun _ => .error "boom") "<html>no data here</html>" (by decide),
   parseMonths_no_listing.2 "<html>no data here</html>" (by decide)⟩

/-- C10: an incident whose impact is none of the four defined levels is
still counted: its weight is 1 — the same as impact "none" — and
appending it to the store raises its day's severity by exactly 1 and
records it in that day's membership (it is neither rejected nor
skipped). -/
theorem unknown_impact_counts (incs : List Incident) (i : Incident)
    (h1 : i.impact ≠ "critical") (h2 : i.impact ≠ "major")
    (h3 : i.impact ≠ "minor") (h4 : i.impact ≠ "none") :
    incidentWeight i = 1
    ∧ incidentWeight i = jsOrNat (impactWeights "none") 1
    ∧ daySeverity (buildDayMap (incs ++ [i])) (dayKey i)
        = daySeverity (buildDayMap incs) (dayKey i) + 1
    ∧ i ∈ dayIncidents (buildDayMap (incs ++ [i])) (dayKey i) := by
  have hw : incidentWeight i = 1 := by
    unfold incidentWeight impactWeights jsOrNat
    rw [if_neg h1, if_neg h2, if_neg h3, if_neg h4]
  refine ⟨hw, ?_, ?_, ?_⟩
  · rw [hw]
    decide
  · rw [buildDayMap_append, addToDay_severity, hw]
  · rw [buildDayMap_append]
    exact addToDay_mem _ _ _

/-- C10 witness: a concrete incident with impact "unknown" counted with
weight 1 into its day (1970-01-01) of a previously empty store. -/
theorem unknown_impact_counts_witness :
    incidentWeight ⟨0, "x", "unknown", "n", none, "s", 0, "st", 0⟩ = 1
    ∧ incidentWeight ⟨0, "x", "unknown", "n", none, "s", 0, "st", 0⟩
        = jsOrNat (impactWeights "none") 1
    ∧ daySeverity (buildDayMap ([] ++ [⟨0, "x", "unknown", "n", none, "s", 0, "st", 0⟩]))
        (dayKey ⟨0, "x", "unknown", "n", none, "s", 0, "st", 0⟩)
        = daySeverity (buildDayMap []) (dayKey ⟨0, "x", "unknown", "n", none, "s", 0, "st", 0⟩) + 1
    ∧ ⟨0, "x", "unknown", "n", none, "s", 0, "st", 0⟩
        ∈ dayIncidents (buildDayMap ([] ++ [⟨0, "x", "unknown", "n", none, "s", 0, "st", 0⟩]))
            (dayKey ⟨0, "x", "unknown", "n", none, "s", 0, "st", 0⟩) :=
  unknown_impact_counts [] ⟨0, "x", "unknown", "n", none, "s", 0, "st", 0⟩
    (by decide) (by decide) (by decide) (by decide)

/-- C5 witness: the grid-structure facts instantiated at the empty
store and `now` = 2024-01-07T00:00Z. -/
theorem heatmap_grid_structure_witness :
    (heatmap [] 1704585600000).weeks.length
      = ((todayOf 1704585600000 - weekStartOf 1704585600000 + 1).toNat + 6) / 7
    ∧ dow (weekStartOf 1704585600000) = 0 :=
  ⟨(heatmap_grid_structure [] 1704585600000).2.1,
   (heatmap_grid_structure [] 1704585600000).2.2.2.2.2.1⟩

/-- C6 witness: the `maxSeverity` bounds instantiated at the
one-old-incident store and `now` = 2024-01-07T00:00Z. -/
theorem maxSeverity_characterization_witness :
    1 ≤ (heatmap [oldIncident] 1704585600000).maxSeverity :=
  (maxSeverity_characterization [oldIncident] 1704585600000).1

/-- C7 witness: one qualifying month listing codes `[A, B, A, C]` with
`B` stored backfills exactly `["A", "C"]`. -/
theorem scraper_dedup_witness :
    backfillCodes
      [⟨31, [⟨"A", "minor", "n1"⟩, ⟨"B", "minor", "n2"⟩,
             ⟨"A", "minor", "n1"⟩, ⟨"C", "minor", "n3"⟩], "January", 3, 2025⟩]
      ["B"] = ["A", "C"] :=
  (scraper_dedup "A" "B" "C" ["B"]
    [⟨31, [⟨"A", "minor", "n1"⟩, ⟨"B", "minor", "n2"⟩,
           ⟨"A", "minor", "n1"⟩, ⟨"C", "minor", "n3"⟩], "January", 3, 2025⟩]
    (by decide) (by decide) (by decide) (by decide) (by decide)).1

/-- C8 witness: at `now` = 10800000 with indicator "major" and one
unresolved incident started at 0 (3 hours earlier), the label is
"Major Outage" and the duration "for 3 hr". -/
theorem statusInfo_outage_duration_witness :
    (statusInfo 10800000 (some ⟨⟨"d", "major"⟩⟩)
        (some ⟨[⟨0, "i1", "major", "n", none, "s", 0, "investigating", 0⟩]⟩) []).duration
      = "for " ++ toString (jsRound (10800000 - 0) 3600000) ++ " hr"
    ∧ (statusInfo 10800000 (some ⟨⟨"d", "major"⟩⟩)
        (some ⟨[⟨0, "i1", "major", "n", none, "s", 0, "investigating", 0⟩]⟩) []).label
      = "Major Outage"
    ∧ (statusInfo 10800000 (some ⟨⟨"d", "major"⟩⟩)
        (some ⟨[⟨0, "i1", "major", "n", none, "s", 0, "investigating", 0⟩]⟩) []).duration
      = "for 3 hr" :=
  ⟨statusInfo_outage_duration.1 10800000 ⟨⟨"d", "major"⟩⟩
      ⟨[⟨0, "i1", "major", "n", none, "s", 0, "investigating", 0⟩]⟩ [] 0
      (by decide) (by decide) (by decide) (by decide),
   (statusInfo_outage_duration.2 10800000 ⟨⟨"d", "major"⟩⟩
      ⟨0, "i1", "major", "n", none, "s", 0, "investigating", 0⟩ []
      (by decide) (by decide)).1,
   (statusInfo_outage_duration.2 10800000 ⟨⟨"d", "major"⟩⟩
      ⟨0, "i1", "major", "n", none, "s", 0, "investigating", 0⟩ []
      (by decide) (by decide)).2⟩
